import Mathlib

/-!
Verification of the generic package manager lockfile resolution pipeline
(src/cachi2/core/package_managers/generic/main.py).

Paths are modelled as lists of path segments.  The external world (the
filesystem probe for the lockfile, the YAML parser result, the bounded
concurrency downloader and the checksum matching primitive) is modelled
as an explicit environment of oracle functions, and the pipeline is a
pure function producing a trace of filesystem and network events next to
its result.
-/

namespace Cachi2Generic

/-- Resolve a relative segment list against an absolute segment list,
processing `..` (pop one segment) and `.` (skip) segments, as the
underlying path normalization does. -/
def joinSegments : List String → List String → List String
  | acc, [] => acc
  | acc, s :: rest =>
    if s = ".." then joinSegments acc.dropLast rest
    else if s = "." then joinSegments acc rest
    else joinSegments (acc ++ [s]) rest

/-- Segment-wise prefix test: `segPrefix root p` holds when `p` lies at or
below `root` in the directory tree. -/
def segPrefix : List String → List String → Bool
  | [], _ => true
  | _ :: _, [] => false
  | a :: as, b :: bs => if a = b then segPrefix as bs else false

/-- Modelled from the spec: the confined root type of
cachi2.core.rooted_path (not under src/).  A filesystem root plus a
subpath below it; the invariant is that resolution never escapes the
root. -/
structure RootedPath where
  root : List String
  subpath : List String
deriving DecidableEq

/-- The full absolute path held by a rooted path. -/
def RootedPath.path (rp : RootedPath) : List String :=
  rp.root ++ rp.subpath

/-- Modelled from the spec: RootedPath.join_within_root (not under src/).
Resolves a relative path against the current path and refuses any result
that is not a descendant of the root; returns the full resolved path. -/
def join_within_root (rp : RootedPath) (rel : List String) : Option (List String) :=
  if segPrefix rp.root (joinSegments (rp.root ++ rp.subpath) rel) then
    some (joinSegments (rp.root ++ rp.subpath) rel)
  else none

/-- Modelled from the spec: RootedPath.re_root (not under src/).  Makes the
resolved subdirectory the new root, so that further resolution cannot
escape it. -/
def re_root (rp : RootedPath) (sub : List String) : Option RootedPath :=
  (join_within_root rp sub).map fun full => { root := full, subpath := [] }

/-- Base filename of a path (`Path(target).name`). -/
def baseName (p : List String) : String :=
  p.getLast?.getD ""

/-- Raw artifact entry as it appears in the parsed YAML document, before
schema validation; a missing key is `none`. -/
structure RawArtifact where
  download_url : Option String
  target : Option (List String)
  checksums : Option (List (String × String))
deriving DecidableEq

/-- Raw lockfile document as it appears after YAML parsing, before schema
validation. -/
structure RawLockfile where
  version : Option String
  artifacts : Option (List RawArtifact)
deriving DecidableEq

/-- A validated artifact: required url, the target resolved to a full
confined path, and a non-empty insertion-ordered checksum mapping. -/
structure Artifact where
  download_url : String
  target : List String
  checksums : List (String × String)
deriving DecidableEq

/-- A validated lockfile (GenericLockfileV1). -/
structure GenericLockfileV1 where
  artifacts : List Artifact
deriving DecidableEq

/-- Field path of a field of artifact `i`, preserved from the structural
location in the document, e.g. `artifacts.2.target`. -/
def locArtifact (i : Nat) (field : String) : String :=
  "artifacts." ++ toString i ++ "." ++ field

/-- Modelled from the spec: schema validation of one artifact entry
(cachi2.core.package_managers.generic.models, not under src/).  Checks
required fields in declaration order, resolves the target against the
output root via path confinement, and rejects an empty checksum
mapping; the first invalid field aborts with its field path and
message. -/
def validateArtifact (out2 : RootedPath) (i : Nat) (ra : RawArtifact) :
    Except (String × String) Artifact :=
  match ra.download_url with
  | none => .error (locArtifact i "download_url", "Field required")
  | some url =>
    match ra.target with
    | none => .error (locArtifact i "target", "Field required")
    | some t =>
      match join_within_root out2 t with
      | none => .error (locArtifact i "target", "target path outside of the output directory")
      | some full =>
        match ra.checksums with
        | none => .error (locArtifact i "checksums", "Field required")
        | some cs =>
          if cs.isEmpty then
            .error (locArtifact i "checksums", "at least one checksum must be provided")
          else .ok { download_url := url, target := full, checksums := cs }

/-- Modelled from the spec: validation of the artifact list, in document
order, aborting at the first invalid field. -/
def validateArtifacts (out2 : RootedPath) (i : Nat) :
    List RawArtifact → Except (String × String) (List Artifact)
  | [] => .ok []
  | ra :: rest =>
    match validateArtifact out2 i ra with
    | .error e => .error e
    | .ok a =>
      match validateArtifacts out2 (i + 1) rest with
      | .error e => .error e
      | .ok as => .ok (a :: as)

/-- Modelled from the spec: GenericLockfileV1.model_validate (not under
src/).  Checks the version tag, requires the artifacts key, and
validates every artifact; the first invalid field aborts with its field
path and message. -/
def validateLockfile (raw : RawLockfile) (out2 : RootedPath) :
    Except (String × String) GenericLockfileV1 :=
  match raw.version with
  | none => .error ("version", "Field required")
  | some v =>
    if v = "1.0" then
      match raw.artifacts with
      | none => .error ("artifacts", "Field required")
      | some ras =>
        match validateArtifacts out2 0 ras with
        | .error e => .error e
        | .ok arts => .ok { artifacts := arts }
    else .error ("version", "Input should be 1.0")

/-- All invalid fields of one raw artifact, in encounter order; follows
the spec wording for the validator so that the first element is the
first encountered invalid field. -/
def artifactInvalidFields (out2 : RootedPath) (i : Nat) (ra : RawArtifact) :
    List (String × String) :=
  (match ra.download_url with
   | none => [(locArtifact i "download_url", "Field required")]
   | some _ => []) ++
  (match ra.target with
   | none => [(locArtifact i "target", "Field required")]
   | some t =>
     match join_within_root out2 t with
     | none => [(locArtifact i "target", "target path outside of the output directory")]
     | some _ => []) ++
  (match ra.checksums with
   | none => [(locArtifact i "checksums", "Field required")]
   | some cs =>
     if cs.isEmpty then [(locArtifact i "checksums", "at least one checksum must be provided")]
     else [])

/-- All invalid fields of a raw artifact list, in encounter order. -/
def invalidFieldsArtifacts (out2 : RootedPath) (i : Nat) :
    List RawArtifact → List (String × String)
  | [] => []
  | ra :: rest => artifactInvalidFields out2 i ra ++ invalidFieldsArtifacts out2 (i + 1) rest

/-- All invalid fields of a raw document, in encounter order (version
first, then the artifacts key, then each artifact in order). -/
def invalidFields (raw : RawLockfile) (out2 : RootedPath) : List (String × String) :=
  (match raw.version with
   | none => [("version", "Field required")]
   | some v => if v = "1.0" then [] else [("version", "Input should be 1.0")]) ++
  (match raw.artifacts with
   | none => [("artifacts", "Field required")]
   | some ras => invalidFieldsArtifacts out2 0 ras)

/-- SBOM external reference (cachi2.core.models.sbom). -/
structure ExternalReference where
  url : String
  type : String
deriving DecidableEq

/-- SBOM component record (cachi2.core.models.sbom). -/
structure Component where
  name : String
  purl : String
  type : String
  external_references : List ExternalReference
deriving DecidableEq

/-- The comma-joined, insertion-ordered `algorithm:digest` checksum
string built at main.py line 115. -/
def formatChecksums : List (String × String) → String
  | [] => ""
  | [c] => c.1 ++ ":" ++ c.2
  | c :: rest => c.1 ++ ":" ++ c.2 ++ "," ++ formatChecksums rest

/-- Serialization of purl qualifiers in insertion order, ampersand
separated. -/
def qualifiersToString : List (String × String) → String
  | [] => ""
  | [q] => q.1 ++ "=" ++ q.2
  | q :: rest => q.1 ++ "=" ++ q.2 ++ "&" ++ qualifiersToString rest

/-- Modelled from the spec: PackageURL(...).to_string() (external
packageurl library, not under src/).  The canonical identifier embeds
the type, the name and the qualifiers serialized in insertion order. -/
def purlToString (ty : String) (nm : String) (qualifiers : List (String × String)) : String :=
  "pkg:" ++ ty ++ "/" ++ nm ++ "?" ++ qualifiersToString qualifiers

/-- The component built for one artifact at main.py lines 112-128. -/
def componentOfArtifact (artifact : Artifact) : Component :=
  let nm := baseName artifact.target
  let url := artifact.download_url
  { name := nm
    purl := purlToString "generic" nm
      [("download_url", url), ("checksums", formatChecksums artifact.checksums)]
    type := "file"
    external_references := [{ url := url, type := "distribution" }] }

/-- _generate_sbom_components (main.py lines 108-131): one component per
artifact, in lockfile order. -/
def generate_sbom_components (lockfile : GenericLockfileV1) : List Component :=
  lockfile.artifacts.map componentOfArtifact

/-- The serialized identifier exactly as the spec words it: qualifiers
with download_url first, then the comma-joined insertion-ordered
checksum pairs. -/
def expectedPurlString (a : Artifact) : String :=
  "pkg:" ++ "generic" ++ "/" ++ baseName a.target ++ "?" ++
    ("download_url" ++ "=" ++ a.download_url ++ "&" ++
      ("checksums" ++ "=" ++ formatChecksums a.checksums))

/-- Observable filesystem / network events of one resolution run. -/
inductive Event where
  | readLockfile : Event
  | mkdirParents : List String → Event
  | downloadBatch : List (String × List String) → Event
  | checkChecksum : List String → List (String × String) → Event
deriving DecidableEq

/-- Errors of the pipeline; PackageRejected carries the user facing
message and an optional solution hint. -/
inductive Err where
  | packageRejected : String → Option String → Err
  | pathOutsideRoot : Err
  | fetchError : List (String × List String) → Err
  | checksumError : List String → Err
deriving DecidableEq

/-- External collaborators of the pipeline: whether the lockfile file
exists, the YAML parse outcome, the downloader outcome for a given
url-to-destination mapping, and the any-checksum-matches primitive. -/
structure Env where
  lockfileExists : Bool
  parsed : Except String RawLockfile
  downloadOk : List (String × List String) → Bool
  checksumOk : List String → List (String × String) → Bool

/-- Membership test of a key in the url-to-destination mapping. -/
def dictContains (k : String) : List (String × List String) → Bool
  | [] => false
  | p :: rest => if p.1 = k then true else dictContains k rest

/-- Python dict assignment `m[k] = v`: updates the value in place when the
key exists, appends a new entry otherwise. -/
def dictInsert (m : List (String × List String)) (k : String) (v : List String) :
    List (String × List String) :=
  if dictContains k m then m.map fun p => if p.1 = k then (k, v) else p
  else m ++ [(k, v)]

/-- Python dict lookup `m[k]`. -/
def dictLookup (k : String) : List (String × List String) → Option (List String)
  | [] => none
  | p :: rest => if p.1 = k then some p.2 else dictLookup k rest

/-- The `to_download` mapping built at main.py lines 61-66: one dict
assignment per artifact, keyed by download url. -/
def buildToDownload (arts : List Artifact) : List (String × List String) :=
  arts.foldl (fun m a => dictInsert m a.download_url a.target) []

/-- The last artifact in lockfile order whose download url equals `k`. -/
def findLast (k : String) : List Artifact → Option Artifact
  | [] => none
  | a :: rest => (findLast k rest).orElse fun _ => if a.download_url = k then some a else none

/-- The checksum verification loop at main.py lines 71-72: sequential in
lockfile order, aborting at the first artifact matching none of its
checksums. -/
def verifyLoop (env : Env) : List Artifact → List Event × Except Err Unit
  | [] => ([], .ok ())
  | a :: rest =>
    if env.checksumOk a.target a.checksums then
      match verifyLoop env rest with
      | (evs, r) => (Event.checkChecksum a.target a.checksums :: evs, r)
    else ([Event.checkChecksum a.target a.checksums], .error (.checksumError a.target))

/-- Number of artifacts examined by the verification loop: all of them
when all pass, otherwise up to and including the first failure. -/
def verifiedPrefixLen (env : Env) : List Artifact → Nat
  | [] => 0
  | a :: rest =>
    if env.checksumOk a.target a.checksums then verifiedPrefixLen env rest + 1 else 1

/-- Message of the missing lockfile rejection (main.py lines 48-49). -/
def lockfileMissingMessage : String :=
  "Cachi2 generic lockfile generic_lockfile.yaml missing, refusing to continue."

/-- Solution hint of the missing lockfile rejection (main.py lines 50-53). -/
def lockfileMissingSolution : String :=
  "Make sure your repository has cachi2 generic lockfile generic_lockfile.yaml checked in to the repository."

/-- _load_lockfile (main.py lines 76-105): YAML parse errors and schema
validation errors each become a PackageRejected whose message carries
the parser message, respectively the field path and message of the
first validation error. -/
def load_lockfile (env : Env) (out2 : RootedPath) : Except Err GenericLockfileV1 :=
  match env.parsed with
  | .error e =>
    .error (.packageRejected ("Cachi2 lockfile yaml format is not correct: " ++ e)
      (some "Check correct yaml syntax in the lockfile."))
  | .ok raw =>
    match validateLockfile raw out2 with
    | .error le =>
      .error (.packageRejected
        ("Cachi2 lockfile format is not valid: " ++ le.1 ++ ": " ++ le.2)
        (some "Check the correct format and whether any keys are missing in the lockfile."))
    | .ok lockfile => .ok lockfile

/-- The part of _resolve_generic_lockfile after a successful load
(main.py lines 61-73): parent directory creation and mapping
construction per artifact, the download batch, the verification loop,
and component generation. -/
def resolveAfterLoad (env : Env) (lockfile : GenericLockfileV1) :
    List Event × Except Err (List Component) :=
  let mkEvs := lockfile.artifacts.map fun a => Event.mkdirParents a.target.dropLast
  let dl := buildToDownload lockfile.artifacts
  if env.downloadOk dl then
    match verifyLoop env lockfile.artifacts with
    | (vevs, .error e) => (mkEvs ++ Event.downloadBatch dl :: vevs, .error e)
    | (vevs, .ok _) =>
      (mkEvs ++ Event.downloadBatch dl :: vevs, .ok (generate_sbom_components lockfile))
  else (mkEvs ++ [Event.downloadBatch dl], .error (.fetchError dl))

/-- The part of _resolve_generic_lockfile from the lockfile read on
(main.py lines 59-73), given the already re-rooted output directory. -/
def resolveWithRoot (env : Env) (out2 : RootedPath) :
    List Event × Except Err (List Component) :=
  match load_lockfile env out2 with
  | .error e => ([Event.readLockfile], .error e)
  | .ok lockfile =>
    match resolveAfterLoad env lockfile with
    | (evs, res) => (Event.readLockfile :: evs, res)

/-- _resolve_generic_lockfile (main.py lines 39-73): existence check of
the lockfile, re-rooting of the output directory to deps/generic,
loading and validation, then the post-load stage. -/
def resolve_generic_lockfile (env : Env) (output_dir : RootedPath) :
    List Event × Except Err (List Component) :=
  if env.lockfileExists then
    match re_root output_dir ["deps", "generic"] with
    | none => ([], .error .pathOutsideRoot)
    | some out2 => resolveWithRoot env out2
  else
    ([], .error (.packageRejected lockfileMissingMessage (some lockfileMissingSolution)))

/-- One generic package of a request. -/
structure GenericPackage where
  path : List String
deriving DecidableEq

/-- The request handed to fetch_generic_source. -/
structure Request where
  generic_packages : List GenericPackage
  source_dir : RootedPath
  output_dir : RootedPath

/-- The request output (cachi2.core.models.output). -/
structure RequestOutput where
  components : List Component
deriving DecidableEq

/-- The loop of fetch_generic_source (main.py lines 32-35): one
resolution per declared generic package, components extended in
order. -/
def fetchLoop (env : Env) (source_dir output_dir : RootedPath) :
    List GenericPackage → List Event × Except Err (List Component)
  | [] => ([], .ok [])
  | p :: rest =>
    match join_within_root source_dir p.path with
    | none => ([], .error .pathOutsideRoot)
    | some _ =>
      match resolve_generic_lockfile env output_dir with
      | (evs, .error e) => (evs, .error e)
      | (evs, .ok cs) =>
        match fetchLoop env source_dir output_dir rest with
        | (evs2, .error e) => (evs ++ evs2, .error e)
        | (evs2, .ok cs2) => (evs ++ evs2, .ok (cs ++ cs2))

/-- fetch_generic_source (main.py lines 26-36). -/
def fetch_generic_source (env : Env) (request : Request) :
    List Event × Except Err RequestOutput :=
  match fetchLoop env request.source_dir request.output_dir request.generic_packages with
  | (evs, .error e) => (evs, .error e)
  | (evs, .ok cs) => (evs, .ok { components := cs })

/-- Whether an event is a checksum examination. -/
def isCheckEvent : Event → Bool
  | Event.checkChecksum _ _ => true
  | _ => false

/-- The checksum examination events of a trace, in order. -/
def checkEvents (tr : List Event) : List Event :=
  tr.filter isCheckEvent

/-- Holds when no checksum examination happens before the download
batch: scanning the trace, a check event seen before the first download
batch falsifies it. -/
def noCheckBeforeDownload : List Event → Bool
  | [] => true
  | Event.downloadBatch _ :: _ => true
  | Event.checkChecksum _ _ :: _ => false
  | _ :: rest => noCheckBeforeDownload rest

/-- All destinations handed to the downloader across a trace. -/
def downloadDestinations (tr : List Event) : List (List String) :=
  tr.foldr (fun e acc =>
    match e with
    | Event.downloadBatch m => m.map Prod.snd ++ acc
    | _ => acc) []

/-- Confinement of one event: directory creation stays under the output
root, and every download destination stays under its deps/generic
subdirectory. -/
def writeConfined (od : RootedPath) (e : Event) : Bool :=
  match e with
  | Event.mkdirParents p => segPrefix od.path p
  | Event.downloadBatch m => m.all fun ut => segPrefix (od.path ++ ["deps", "generic"]) ut.2
  | _ => true

/-! Helper lemmas about the url-to-destination dictionary. -/

theorem dictLookup_dictInsertAux (m : List (String × List String)) (k : String)
    (v : List String) (hc : dictContains k m = true) :
    dictLookup k (m.map fun p => if p.1 = k then (k, v) else p) = some v := by
  induction m with
  | nil => simp [dictContains] at hc
  | cons p rest ih =>
    by_cases hp : p.1 = k
    · simp [dictLookup, hp]
    · simp only [dictContains, if_neg hp] at hc
      simp [dictLookup, hp, ih hc]

theorem dictLookup_append_single (m : List (String × List String)) (k : String)
    (v : List String) :
    dictLookup k (m ++ [(k, v)]) = some ((dictLookup k m).getD v) := by
  induction m with
  | nil => simp [dictLookup]
  | cons p rest ih =>
    by_cases hp : p.1 = k
    · simp [dictLookup, hp]
    · simp [dictLookup, hp, ih]

theorem dictLookup_eq_none_of_not_contains (m : List (String × List String)) (k : String)
    (hc : dictContains k m = false) :
    dictLookup k m = none := by
  induction m with
  | nil => rfl
  | cons p rest ih =>
    by_cases hp : p.1 = k
    · simp [dictContains, hp] at hc
    · simp only [dictContains, if_neg hp] at hc
      simp [dictLookup, hp, ih hc]

theorem dictLookup_mapUpdate_ne (m : List (String × List String)) (k u : String)
    (v : List String) (h : u ≠ k) :
    dictLookup u (m.map fun p => if p.1 = k then (k, v) else p) = dictLookup u m := by
  induction m with
  | nil => rfl
  | cons p rest ih =>
    by_cases hp : p.1 = k
    · have h1 : k ≠ u := Ne.symm h
      have h2 : p.1 ≠ u := by rw [hp]; exact h1
      simp [dictLookup, hp, h1, h2, ih]
    · by_cases hpu : p.1 = u
      · simp [dictLookup, hp, hpu, h]
      · simp [dictLookup, hp, hpu, ih]

theorem dictLookup_append_single_ne (m : List (String × List String)) (k u : String)
    (v : List String) (h : u ≠ k) :
    dictLookup u (m ++ [(k, v)]) = dictLookup u m := by
  induction m with
  | nil => simp [dictLookup, Ne.symm h]
  | cons p rest ih =>
    by_cases hpu : p.1 = u
    · simp [dictLookup, hpu]
    · simp [dictLookup, hpu, ih]

theorem dictLookup_dictInsert_self (m : List (String × List String)) (k : String)
    (v : List String) :
    dictLookup k (dictInsert m k v) = some v := by
  unfold dictInsert
  by_cases hc : dictContains k m = true
  · simp [hc, dictLookup_dictInsertAux m k v hc]
  · rw [if_neg hc, dictLookup_append_single,
      dictLookup_eq_none_of_not_contains m k (by simpa using hc)]
    rfl

theorem dictLookup_dictInsert_ne (m : List (String × List String)) (k u : String)
    (v : List String) (h : u ≠ k) :
    dictLookup u (dictInsert m k v) = dictLookup u m := by
  unfold dictInsert
  by_cases hc : dictContains k m = true
  · rw [if_pos hc, dictLookup_mapUpdate_ne m k u v h]
  · rw [if_neg hc, dictLookup_append_single_ne m k u v h]

theorem buildToDownload_go (arts : List Artifact) (m : List (String × List String))
    (u : String) :
    dictLookup u (arts.foldl (fun acc a => dictInsert acc a.download_url a.target) m) =
      match findLast u arts with
      | some a => some a.target
      | none => dictLookup u m := by
  induction arts generalizing m with
  | nil => simp [findLast]
  | cons a rest ih =>
    simp only [List.foldl_cons, findLast]
    rw [ih]
    cases hf : findLast u rest with
    | some b => simp [Option.orElse]
    | none =>
      simp only [Option.orElse, Option.none_orElse]
      by_cases hu : a.download_url = u
      · subst hu
        simp [dictLookup_dictInsert_self]
      · have : u ≠ a.download_url := fun hk => hu hk.symm
        simp [hu, dictLookup_dictInsert_ne _ _ _ _ this]

/-! Sample concrete inputs used by witnesses and counterexamples. -/

/-- A sample artifact. -/
def sampleArtifact : Artifact :=
  { download_url := "https://x/a.bin"
    target := ["o", "deps", "generic", "lib", "a.bin"]
    checksums := [("sha256", "d1"), ("sha512", "d2")] }

/-- A sample validated lockfile. -/
def sampleLockfile : GenericLockfileV1 :=
  { artifacts := [sampleArtifact] }

/-- Two raw artifacts sharing one download url but declaring different
targets. -/
def rawC1 : RawLockfile :=
  { version := some "1.0"
    artifacts := some
      [ { download_url := some "https://x/a.bin"
          target := some ["a"]
          checksums := some [("sha256", "d1")] }
      , { download_url := some "https://x/a.bin"
          target := some ["b"]
          checksums := some [("sha256", "d1")] } ] }

/-- Environment holding the duplicate-url lockfile, with a downloader and
checksum primitive that always succeed. -/
def envC1 : Env :=
  { lockfileExists := true
    parsed := .ok rawC1
    downloadOk := fun _ => true
    checksumOk := fun _ _ => true }

/-- A sample output root. -/
def sampleOutputDir : RootedPath :=
  { root := ["o"], subpath := [] }

/-- C1: the claim states that for a lockfile with two artifacts sharing a
download_url but declaring different targets, both target paths are
present as destinations handed to the downloader.  This is false: the
mapping is keyed by url, so the first target is silently dropped. -/
theorem C1_counterexample :
    ¬ (["o", "deps", "generic", "a"] ∈
        downloadDestinations (resolve_generic_lockfile envC1 sampleOutputDir).1 ∧
       ["o", "deps", "generic", "b"] ∈
        downloadDestinations (resolve_generic_lockfile envC1 sampleOutputDir).1) := by
  decide

/-- C1 (amended): the url-to-destination mapping handed to the downloader
maps each download url to the target of the last artifact in lockfile
order with that url; the targets of earlier artifacts sharing the url
are dropped from the mapping. -/
theorem C1_amended_last_target_wins (arts : List Artifact) (u : String) :
    dictLookup u (buildToDownload arts) =
      match findLast u arts with
      | some a => some a.target
      | none => none := by
  unfold buildToDownload
  rw [buildToDownload_go]
  cases findLast u arts <;> simp [dictLookup]

/-- C4: the serialized package identifier of an artifact places the
download_url qualifier first, then the checksums qualifier whose value
is the comma-joined insertion-ordered algorithm:digest pairs; the
string is a pure function of the artifact, hence byte-for-byte
reproducible. -/
theorem C4_purl_serialization (a : Artifact) :
    (componentOfArtifact a).purl = expectedPurlString a := rfl

/-- C5: component emission is deterministic; identical validated
lockfiles yield identical component sequences. -/
theorem C5_deterministic (lf1 lf2 : GenericLockfileV1) (h : lf1 = lf2) :
    generate_sbom_components lf1 = generate_sbom_components lf2 := by
  rw [h]

theorem C5_deterministic_witness :
    generate_sbom_components sampleLockfile = generate_sbom_components sampleLockfile :=
  C5_deterministic sampleLockfile sampleLockfile rfl

/-- C9: when the lockfile is absent at the conventional path, resolution
fails with a rejection carrying a solution hint, and the run is
terminal: the trace is empty, so no directory creation, download,
verification or component emission occurs. -/
theorem C9_missing_lockfile (env : Env) (output_dir : RootedPath)
    (h : env.lockfileExists = false) :
    resolve_generic_lockfile env output_dir =
      ([], .error (.packageRejected lockfileMissingMessage (some lockfileMissingSolution))) := by
  unfold resolve_generic_lockfile
  rw [h]
  rfl

/-- Environment with no lockfile present. -/
def envC9 : Env :=
  { lockfileExists := false
    parsed := .error "unused"
    downloadOk := fun _ => true
    checksumOk := fun _ _ => true }

theorem C9_missing_lockfile_witness :
    resolve_generic_lockfile envC9 sampleOutputDir =
      ([], .error (.packageRejected lockfileMissingMessage (some lockfileMissingSolution))) :=
  C9_missing_lockfile envC9 sampleOutputDir rfl

/-- C10: a request with no generic packages produces an output with an
empty component list and an empty trace: no filesystem access, lockfile
loading, download or verification happens. -/
theorem C10_empty_request (env : Env) (request : Request)
    (h : request.generic_packages = []) :
    fetch_generic_source env request = ([], .ok { components := [] }) := by
  unfold fetch_generic_source
  rw [h]
  rfl

/-- A request with no generic packages. -/
def requestC10 : Request :=
  { generic_packages := []
    source_dir := { root := ["s"], subpath := [] }
    output_dir := sampleOutputDir }

theorem C10_empty_request_witness :
    fetch_generic_source envC9 requestC10 = ([], .ok { components := [] }) :=
  C10_empty_request envC9 requestC10 rfl

/-! Path confinement lemmas. -/

theorem joinSegments_cons_plain (acc : List String) (s : String) (rest : List String)
    (h1 : s ≠ "..") (h2 : s ≠ ".") :
    joinSegments acc (s :: rest) = joinSegments (acc ++ [s]) rest := by
  simp only [joinSegments]
  rw [if_neg h1, if_neg h2]

theorem segPrefix_append_right (l t : List String) : segPrefix l (l ++ t) = true := by
  induction l with
  | nil => rfl
  | cons a as ih => simp [segPrefix, ih]

theorem segPrefix_eq_true_iff (l t : List String) :
    segPrefix l t = true ↔ ∃ r, t = l ++ r := by
  induction l generalizing t with
  | nil => simp [segPrefix]
  | cons a as ih =>
    cases t with
    | nil => simp [segPrefix]
    | cons b bs =>
      by_cases hab : a = b
      · subst hab
        simp [segPrefix, ih]
      · simp [segPrefix, hab, Ne.symm hab]

theorem re_root_deps (od : RootedPath) :
    re_root od ["deps", "generic"] =
      some { root := od.path ++ ["deps", "generic"], subpath := [] } := by
  have hj : joinSegments (od.root ++ od.subpath) ["deps", "generic"] =
      (od.root ++ od.subpath) ++ ["deps", "generic"] := by
    rw [joinSegments_cons_plain _ _ _ (by decide) (by decide),
      joinSegments_cons_plain _ _ _ (by decide) (by decide)]
    simp [joinSegments]
  have hp : segPrefix od.root ((od.root ++ od.subpath) ++ ["deps", "generic"]) = true := by
    rw [List.append_assoc]
    exact segPrefix_append_right _ _
  unfold re_root join_within_root
  rw [hj, if_pos hp]
  simp [RootedPath.path]

theorem join_within_root_confined (rp : RootedPath) (rel full : List String)
    (h : join_within_root rp rel = some full) :
    segPrefix rp.root full = true := by
  unfold join_within_root at h
  by_cases hp : segPrefix rp.root (joinSegments (rp.root ++ rp.subpath) rel) = true
  · rw [if_pos hp] at h
    injection h with h2
    rw [← h2]
    exact hp
  · rw [if_neg hp] at h
    cases h

/-! Validation lemmas: targets of validated artifacts are confined to the
root they were validated against. -/

theorem validateArtifact_confined (out2 : RootedPath) (i : Nat) (ra : RawArtifact)
    (a : Artifact) (h : validateArtifact out2 i ra = .ok a) :
    segPrefix out2.root a.target = true := by
  cases hu : ra.download_url with
  | none => simp [validateArtifact, hu] at h
  | some url =>
    cases ht : ra.target with
    | none => simp [validateArtifact, hu, ht] at h
    | some t =>
      cases hj : join_within_root out2 t with
      | none => simp [validateArtifact, hu, ht, hj] at h
      | some full =>
        cases hc : ra.checksums with
        | none => simp [validateArtifact, hu, ht, hj, hc] at h
        | some cs =>
          by_cases he : cs.isEmpty
          · simp [validateArtifact, hu, ht, hj, hc, he] at h
          · simp only [validateArtifact, hu, ht, hj, hc, he, if_neg, Bool.false_eq_true,
              if_false, Except.ok.injEq] at h
            rw [← h]
            exact join_within_root_confined out2 t full hj

theorem validateArtifacts_confined (out2 : RootedPath) (i : Nat) (ras : List RawArtifact)
    (arts : List Artifact) (h : validateArtifacts out2 i ras = .ok arts) :
    ∀ a ∈ arts, segPrefix out2.root a.target = true := by
  induction ras generalizing i arts with
  | nil =>
    simp only [validateArtifacts, Except.ok.injEq] at h
    subst h
    intro a ha
    cases ha
  | cons ra rest ih =>
    cases hva : validateArtifact out2 i ra with
    | error e => simp [validateArtifacts, hva] at h
    | ok a =>
      cases hvr : validateArtifacts out2 (i + 1) rest with
      | error e => simp [validateArtifacts, hva, hvr] at h
      | ok as =>
        simp only [validateArtifacts, hva, hvr, Except.ok.injEq] at h
        subst h
        intro b hb
        rcases List.mem_cons.mp hb with rfl | hbs
        · exact validateArtifact_confined out2 i ra b hva
        · exact ih (i + 1) as hvr b hbs

theorem validateLockfile_confined (raw : RawLockfile) (out2 : RootedPath)
    (lf : GenericLockfileV1) (h : validateLockfile raw out2 = .ok lf) :
    ∀ a ∈ lf.artifacts, segPrefix out2.root a.target = true := by
  cases hv : raw.version with
  | none => simp [validateLockfile, hv] at h
  | some v =>
    by_cases hv1 : v = "1.0"
    · cases ha : raw.artifacts with
      | none => simp [validateLockfile, hv, hv1, ha] at h
      | some ras =>
        cases hvr : validateArtifacts out2 0 ras with
        | error e => simp [validateLockfile, hv, hv1, ha, hvr] at h
        | ok arts =>
          simp only [validateLockfile, hv, hv1, if_pos, ha, hvr, Except.ok.injEq] at h
          subst h
          exact validateArtifacts_confined out2 0 ras arts hvr
    · simp [validateLockfile, hv, hv1] at h

theorem load_lockfile_confined (env : Env) (out2 : RootedPath)
    (lf : GenericLockfileV1) (h : load_lockfile env out2 = .ok lf) :
    ∀ a ∈ lf.artifacts, segPrefix out2.root a.target = true := by
  cases hp : env.parsed with
  | error e => simp [load_lockfile, hp] at h
  | ok raw =>
    cases hv : validateLockfile raw out2 with
    | error le => simp [load_lockfile, hp, hv] at h
    | ok lockfile =>
      simp only [load_lockfile, hp, hv, Except.ok.injEq] at h
      subst h
      exact validateLockfile_confined raw out2 lockfile hv

/-! Lemmas about the url-to-destination mapping membership. -/

theorem mem_dictInsert (m : List (String × List String)) (k : String) (v : List String)
    (p : String × List String) (hp : p ∈ dictInsert m k v) :
    p ∈ m ∨ p = (k, v) := by
  unfold dictInsert at hp
  by_cases hc : dictContains k m = true
  · rw [if_pos hc] at hp
    rcases List.mem_map.mp hp with ⟨q, hq, rfl⟩
    by_cases hqk : q.1 = k
    · right; simp [hqk]
    · left; simpa [hqk] using hq
  · rw [if_neg hc] at hp
    rcases List.mem_append.mp hp with h | h
    · left; exact h
    · right; simpa using h

theorem mem_buildToDownload_go (arts : List Artifact) (m : List (String × List String))
    (p : String × List String)
    (hp : p ∈ arts.foldl (fun acc a => dictInsert acc a.download_url a.target) m) :
    p ∈ m ∨ ∃ a ∈ arts, p = (a.download_url, a.target) := by
  induction arts generalizing m with
  | nil => left; exact hp
  | cons a rest ih =>
    simp only [List.foldl_cons] at hp
    rcases ih _ hp with h | ⟨b, hb, rfl⟩
    · rcases mem_dictInsert _ _ _ _ h with h2 | rfl
      · left; exact h2
      · right; exact ⟨a, by simp, rfl⟩
    · right; exact ⟨b, by simp [hb], rfl⟩

theorem mem_buildToDownload (arts : List Artifact) (p : String × List String)
    (hp : p ∈ buildToDownload arts) :
    ∃ a ∈ arts, p = (a.download_url, a.target) := by
  rcases mem_buildToDownload_go arts [] p hp with h | h
  · cases h
  · exact h

/-! Trace shape lemmas. -/

theorem verifyLoop_events_check (env : Env) (l : List Artifact) :
    ∀ e ∈ (verifyLoop env l).1, isCheckEvent e = true := by
  induction l with
  | nil => simp [verifyLoop]
  | cons a rest ih =>
    by_cases hok : env.checksumOk a.target a.checksums = true
    · rcases hr : verifyLoop env rest with ⟨evs, r⟩
      intro e he
      simp only [verifyLoop, hok, if_pos, hr] at he
      rcases List.mem_cons.mp he with rfl | he2
      · rfl
      · exact ih e (by rw [hr]; exact he2)
    · intro e he
      simp only [verifyLoop, hok, Bool.false_eq_true, if_false] at he
      rcases List.mem_cons.mp he with rfl | he2
      · rfl
      · cases he2

theorem writeConfined_of_check (od : RootedPath) (e : Event)
    (h : isCheckEvent e = true) : writeConfined od e = true := by
  cases e with
  | checkChecksum t cs => rfl
  | readLockfile => rfl
  | mkdirParents p => cases h
  | downloadBatch m => cases h

/-- Confinement of the target parent directory under the original output
root: a target below the deps/generic subdirectory has its parent below
the output root. -/
theorem dropLast_confined (od : RootedPath) (t : List String)
    (h : segPrefix (od.path ++ ["deps", "generic"]) t = true) :
    segPrefix od.path t.dropLast = true := by
  rcases (segPrefix_eq_true_iff _ _).mp h with ⟨r, rfl⟩
  rw [List.append_assoc]
  show segPrefix od.path (od.path ++ "deps" :: ("generic" :: r)).dropLast = true
  rw [List.dropLast_append_cons]
  exact segPrefix_append_right _ _

theorem resolveAfterLoad_confined (env : Env) (od : RootedPath) (lf : GenericLockfileV1)
    (hconf : ∀ a ∈ lf.artifacts,
      segPrefix (od.path ++ ["deps", "generic"]) a.target = true) :
    (((resolveAfterLoad env lf).1).all fun e => writeConfined od e) = true := by
  have hmk : ((lf.artifacts.map fun a => Event.mkdirParents a.target.dropLast).all
      fun e => writeConfined od e) = true := by
    rw [List.all_eq_true]
    intro e he
    rcases List.mem_map.mp he with ⟨a, ha, rfl⟩
    show segPrefix od.path a.target.dropLast = true
    exact dropLast_confined od a.target (hconf a ha)
  have hdl : writeConfined od (Event.downloadBatch (buildToDownload lf.artifacts)) = true := by
    show (buildToDownload lf.artifacts).all
      (fun ut => segPrefix (od.path ++ ["deps", "generic"]) ut.2) = true
    rw [List.all_eq_true]
    intro p hp
    rcases mem_buildToDownload _ p hp with ⟨a, ha, rfl⟩
    exact hconf a ha
  unfold resolveAfterLoad
  by_cases hdlok : env.downloadOk (buildToDownload lf.artifacts) = true
  · rcases hvl : verifyLoop env lf.artifacts with ⟨vevs, vres⟩
    have hv : (vevs.all fun e => writeConfined od e) = true := by
      rw [List.all_eq_true]
      intro e he
      refine writeConfined_of_check od e (verifyLoop_events_check env lf.artifacts e ?_)
      rw [hvl]
      exact he
    cases vres with
    | error e =>
      simp only [hdlok, if_pos, hvl]
      rw [List.all_append, hmk, List.all_cons, hdl, hv]
      rfl
    | ok u =>
      simp only [hdlok, if_pos, hvl]
      rw [List.all_append, hmk, List.all_cons, hdl, hv]
      rfl
  · simp only [hdlok, Bool.false_eq_true, if_false]
    rw [List.all_append, hmk, List.all_cons, hdl]
    rfl

/-- C2: the output root is re-rooted to deps/generic before any write,
and every write of a resolution run is confined: directory creation
stays under the caller provided output root and every artifact download
destination lies under its deps/generic subdirectory. -/
theorem C2_write_confinement (env : Env) (od : RootedPath) :
    ((resolve_generic_lockfile env od).1.all fun e => writeConfined od e) = true := by
  unfold resolve_generic_lockfile
  by_cases hex : env.lockfileExists = true
  · rw [if_pos hex, re_root_deps od]
    show ((resolveWithRoot env _).1.all fun e => writeConfined od e) = true
    unfold resolveWithRoot
    cases hl : load_lockfile env { root := od.path ++ ["deps", "generic"], subpath := [] } with
    | error e => rfl
    | ok lf =>
      rcases hra : resolveAfterLoad env lf with ⟨evs, res⟩
      have hconf : ∀ a ∈ lf.artifacts,
          segPrefix (od.path ++ ["deps", "generic"]) a.target = true := by
        intro a ha
        exact load_lockfile_confined env _ lf hl a ha
      have hall := resolveAfterLoad_confined env od lf hconf
      rw [hra] at hall
      show ((match resolveAfterLoad env lf with
        | (evs, res) => (Event.readLockfile :: evs, res)).1.all fun e => writeConfined od e) = true
      rw [hra]
      show ((Event.readLockfile :: evs).all fun e => writeConfined od e) = true
      rw [List.all_cons]
      have hre : writeConfined od Event.readLockfile = true := rfl
      rw [hre]
      simpa using hall
  · rw [if_neg hex]
    rfl

/-- C3: component emission produces exactly one component per artifact,
in lockfile order; each component is named after the base filename of
the artifact target and carries exactly one external reference of type
distribution pointing at the artifact download url. -/
theorem C3_one_component_per_artifact (lf : GenericLockfileV1) :
    (generate_sbom_components lf).length = lf.artifacts.length ∧
    ∀ (i : Nat) (hi : i < lf.artifacts.length)
      (hc : i < (generate_sbom_components lf).length),
      ((generate_sbom_components lf).get ⟨i, hc⟩).name =
          baseName ((lf.artifacts.get ⟨i, hi⟩).target) ∧
      ((generate_sbom_components lf).get ⟨i, hc⟩).external_references =
          [{ url := (lf.artifacts.get ⟨i, hi⟩).download_url, type := "distribution" }] ∧
      (generate_sbom_components lf).get ⟨i, hc⟩ =
          componentOfArtifact (lf.artifacts.get ⟨i, hi⟩) := by
  refine ⟨by simp [generate_sbom_components], ?_⟩
  intro i hi hc
  have h3 : (generate_sbom_components lf).get ⟨i, hc⟩ =
      componentOfArtifact (lf.artifacts.get ⟨i, hi⟩) := by
    simp [generate_sbom_components, List.get_eq_getElem, List.getElem_map]
  exact ⟨by rw [h3]; rfl, by rw [h3]; rfl, h3⟩

theorem C3_one_component_per_artifact_witness :
    ((generate_sbom_components sampleLockfile).get ⟨0, by decide⟩) =
      componentOfArtifact (sampleLockfile.artifacts.get ⟨0, by decide⟩) :=
  ((C3_one_component_per_artifact sampleLockfile).2 0 (by decide) (by decide)).2.2

/-! Verification loop lemmas for C6. -/

theorem verifyLoop_events_shape (env : Env) (l : List Artifact) :
    (verifyLoop env l).1 =
      (l.take (verifiedPrefixLen env l)).map
        fun a => Event.checkChecksum a.target a.checksums := by
  induction l with
  | nil => rfl
  | cons a rest ih =>
    by_cases hok : env.checksumOk a.target a.checksums = true
    · rcases hr : verifyLoop env rest with ⟨evs, r⟩
      rw [hr] at ih
      simp only [verifyLoop, hok, if_pos, hr, verifiedPrefixLen]
      show Event.checkChecksum a.target a.checksums :: evs =
        ((a :: rest).take (verifiedPrefixLen env rest + 1)).map
          fun a => Event.checkChecksum a.target a.checksums
      rw [List.take_succ_cons, List.map_cons]
      exact congrArg _ ih
    · simp only [verifyLoop, hok, Bool.false_eq_true, if_false, verifiedPrefixLen]
      rfl

theorem verifyLoop_error_of_bad (env : Env) (l : List Artifact) (a : Artifact)
    (ha : a ∈ l) (hbad : env.checksumOk a.target a.checksums = false) :
    ∃ t, (verifyLoop env l).2 = .error (.checksumError t) := by
  induction l with
  | nil => cases ha
  | cons b rest ih =>
    by_cases hok : env.checksumOk b.target b.checksums = true
    · rcases List.mem_cons.mp ha with rfl | ha2
      · rw [hbad] at hok; cases hok
      · rcases hr : verifyLoop env rest with ⟨evs, r⟩
        rcases ih ha2 with ⟨t, ht⟩
        rw [hr] at ht
        refine ⟨t, ?_⟩
        simp only [verifyLoop, hok, if_pos, hr]
        exact ht
    · refine ⟨b.target, ?_⟩
      simp only [verifyLoop, hok, Bool.false_eq_true, if_false]

theorem checkEvents_shape (l : List Artifact) (m : List (String × List String))
    (vevs : List Event) (hv : ∀ e ∈ vevs, isCheckEvent e = true) :
    checkEvents (Event.readLockfile ::
      ((l.map fun a => Event.mkdirParents a.target.dropLast) ++
        Event.downloadBatch m :: vevs)) = vevs := by
  have h1 : (l.map fun a => Event.mkdirParents a.target.dropLast).filter isCheckEvent = [] := by
    rw [List.filter_eq_nil_iff]
    intro e he
    rcases List.mem_map.mp he with ⟨a, ha, rfl⟩
    simp [isCheckEvent]
  have h2 : vevs.filter isCheckEvent = vevs := by
    rw [List.filter_eq_self]
    intro e he
    exact hv e he
  have hr : isCheckEvent Event.readLockfile = false := rfl
  have hb : isCheckEvent (Event.downloadBatch m) = false := rfl
  unfold checkEvents
  rw [List.filter_cons, hr]
  simp only [Bool.false_eq_true, if_false]
  rw [List.filter_append, h1, List.nil_append, List.filter_cons, hb]
  simp only [Bool.false_eq_true, if_false]
  exact h2

theorem noCheckBeforeDownload_mkdirs (l : List Artifact) (m : List (String × List String))
    (rest : List Event) :
    noCheckBeforeDownload ((l.map fun a => Event.mkdirParents a.target.dropLast) ++
      Event.downloadBatch m :: rest) = true := by
  induction l with
  | nil => rfl
  | cons a as ih => simpa [noCheckBeforeDownload] using ih

/-- C6: checksum verification happens only after the download batch (no
check event precedes the batch in the trace, and a failed batch yields
no check events at all); the artifacts examined form a prefix of the
lockfile order; and any artifact failing verification makes the run
abort without producing components. -/
theorem C6_verification_discipline (env : Env) (od out2 : RootedPath)
    (lf : GenericLockfileV1)
    (hex : env.lockfileExists = true)
    (hrr : re_root od ["deps", "generic"] = some out2)
    (hlf : load_lockfile env out2 = .ok lf) :
    noCheckBeforeDownload (resolve_generic_lockfile env od).1 = true ∧
    checkEvents (resolve_generic_lockfile env od).1 =
      (if env.downloadOk (buildToDownload lf.artifacts) = true then
        (lf.artifacts.take (verifiedPrefixLen env lf.artifacts)).map
          fun a => Event.checkChecksum a.target a.checksums
      else []) ∧
    ((∃ a ∈ lf.artifacts, env.checksumOk a.target a.checksums = false) →
      ∀ cs, (resolve_generic_lockfile env od).2 ≠ .ok cs) := by
  by_cases hdl : env.downloadOk (buildToDownload lf.artifacts) = true
  · rcases hvl : verifyLoop env lf.artifacts with ⟨vevs, vres⟩
    have hvevs : vevs = (lf.artifacts.take (verifiedPrefixLen env lf.artifacts)).map
        fun a => Event.checkChecksum a.target a.checksums := by
      have h := verifyLoop_events_shape env lf.artifacts
      rw [hvl] at h
      exact h
    have hvcheck : ∀ e ∈ vevs, isCheckEvent e = true := by
      intro e he
      refine verifyLoop_events_check env lf.artifacts e ?_
      rw [hvl]
      exact he
    cases vres with
    | error e =>
      have hres : resolve_generic_lockfile env od =
          (Event.readLockfile ::
            ((lf.artifacts.map fun a => Event.mkdirParents a.target.dropLast) ++
              Event.downloadBatch (buildToDownload lf.artifacts) :: vevs), .error e) := by
        unfold resolve_generic_lockfile
        rw [if_pos hex, hrr]
        show resolveWithRoot env out2 = _
        unfold resolveWithRoot
        rw [hlf]
        simp only [resolveAfterLoad, hdl, if_pos, hvl]
      rw [hres]
      refine ⟨?_, ?_, ?_⟩
      · show noCheckBeforeDownload
          ((lf.artifacts.map fun a => Event.mkdirParents a.target.dropLast) ++
            Event.downloadBatch (buildToDownload lf.artifacts) :: vevs) = true
        exact noCheckBeforeDownload_mkdirs _ _ _
      · rw [checkEvents_shape _ _ _ hvcheck, if_pos hdl]
        exact hvevs
      · intro _ cs
        simp
    | ok u =>
      have hres : resolve_generic_lockfile env od =
          (Event.readLockfile ::
            ((lf.artifacts.map fun a => Event.mkdirParents a.target.dropLast) ++
              Event.downloadBatch (buildToDownload lf.artifacts) :: vevs),
            .ok (generate_sbom_components lf)) := by
        unfold resolve_generic_lockfile
        rw [if_pos hex, hrr]
        show resolveWithRoot env out2 = _
        unfold resolveWithRoot
        rw [hlf]
        simp only [resolveAfterLoad, hdl, if_pos, hvl]
      rw [hres]
      refine ⟨?_, ?_, ?_⟩
      · show noCheckBeforeDownload
          ((lf.artifacts.map fun a => Event.mkdirParents a.target.dropLast) ++
            Event.downloadBatch (buildToDownload lf.artifacts) :: vevs) = true
        exact noCheckBeforeDownload_mkdirs _ _ _
      · rw [checkEvents_shape _ _ _ hvcheck, if_pos hdl]
        exact hvevs
      · intro hbad cs
        rcases hbad with ⟨a, ha, hfail⟩
        rcases verifyLoop_error_of_bad env lf.artifacts a ha hfail with ⟨t, ht⟩
        rw [hvl] at ht
        cases ht
  · have hres : resolve_generic_lockfile env od =
        (Event.readLockfile ::
          ((lf.artifacts.map fun a => Event.mkdirParents a.target.dropLast) ++
            [Event.downloadBatch (buildToDownload lf.artifacts)]),
          .error (.fetchError (buildToDownload lf.artifacts))) := by
      unfold resolve_generic_lockfile
      rw [if_pos hex, hrr]
      show resolveWithRoot env out2 = _
      unfold resolveWithRoot
      rw [hlf]
      simp only [resolveAfterLoad, hdl, Bool.false_eq_true, if_false]
    rw [hres]
    refine ⟨?_, ?_, ?_⟩
    · show noCheckBeforeDownload
        ((lf.artifacts.map fun a => Event.mkdirParents a.target.dropLast) ++
          Event.downloadBatch (buildToDownload lf.artifacts) :: []) = true
      exact noCheckBeforeDownload_mkdirs _ _ _
    · rw [if_neg hdl]
      exact checkEvents_shape lf.artifacts (buildToDownload lf.artifacts) []
        (by intro e he; cases he)
    · intro _ cs
      simp

/-- A lockfile whose single artifact declares a checksum the verifier
will reject (the environment's checksum primitive answers false). -/
def rawC6 : RawLockfile :=
  { version := some "1.0"
    artifacts := some
      [ { download_url := some "https://x/f.bin"
          target := some ["f.bin"]
          checksums := some [("sha256", "bad")] } ] }

/-- Environment where every checksum verification fails. -/
def envC6 : Env :=
  { lockfileExists := true
    parsed := .ok rawC6
    downloadOk := fun _ => true
    checksumOk := fun _ _ => false }

/-- The re-rooted output directory for the sample output root. -/
def out2C6 : RootedPath :=
  { root := ["o", "deps", "generic"], subpath := [] }

/-- The validated form of rawC6. -/
def lfC6 : GenericLockfileV1 :=
  { artifacts := [ { download_url := "https://x/f.bin"
                     target := ["o", "deps", "generic", "f.bin"]
                     checksums := [("sha256", "bad")] } ] }

theorem C6_verification_discipline_witness :
    noCheckBeforeDownload (resolve_generic_lockfile envC6 sampleOutputDir).1 = true ∧
    checkEvents (resolve_generic_lockfile envC6 sampleOutputDir).1 =
      (if envC6.downloadOk (buildToDownload lfC6.artifacts) = true then
        (lfC6.artifacts.take (verifiedPrefixLen envC6 lfC6.artifacts)).map
          fun a => Event.checkChecksum a.target a.checksums
      else []) ∧
    ((∃ a ∈ lfC6.artifacts, envC6.checksumOk a.target a.checksums = false) →
      ∀ cs, (resolve_generic_lockfile envC6 sampleOutputDir).2 ≠ .ok cs) :=
  C6_verification_discipline envC6 sampleOutputDir out2C6 lfC6 rfl (by decide) rfl

/-- C7: when the parsed document fails schema validation, the run aborts
with a rejection whose message contains the offending field path, and
the downloader is never invoked (no download batch event occurs). -/
theorem C7_validation_rejects (env : Env) (od out2 : RootedPath) (raw : RawLockfile)
    (loc msg : String)
    (hex : env.lockfileExists = true)
    (hrr : re_root od ["deps", "generic"] = some out2)
    (hparse : env.parsed = .ok raw)
    (hval : validateLockfile raw out2 = .error (loc, msg)) :
    (∃ pre post, (resolve_generic_lockfile env od).2 =
      .error (.packageRejected (pre ++ loc ++ post)
        (some "Check the correct format and whether any keys are missing in the lockfile."))) ∧
    ∀ m, Event.downloadBatch m ∉ (resolve_generic_lockfile env od).1 := by
  have hres : resolve_generic_lockfile env od = ([Event.readLockfile],
      .error (.packageRejected
        ("Cachi2 lockfile format is not valid: " ++ loc ++ ": " ++ msg)
        (some "Check the correct format and whether any keys are missing in the lockfile."))) := by
    unfold resolve_generic_lockfile
    rw [if_pos hex, hrr]
    show resolveWithRoot env out2 = _
    unfold resolveWithRoot
    unfold load_lockfile
    rw [hparse]
    simp only [hval]
  rw [hres]
  constructor
  · refine ⟨"Cachi2 lockfile format is not valid: ", ": " ++ msg, ?_⟩
    show Except.error (Err.packageRejected
        ("Cachi2 lockfile format is not valid: " ++ loc ++ ": " ++ msg) _) = _
    rw [String.append_assoc]
  · intro m hm
    simp at hm

/-- Raw document missing the artifacts key. -/
def rawC7 : RawLockfile :=
  { version := some "1.0", artifacts := none }

/-- Environment whose lockfile parses to a document without the artifacts
key. -/
def envC7 : Env :=
  { lockfileExists := true
    parsed := .ok rawC7
    downloadOk := fun _ => true
    checksumOk := fun _ _ => true }

theorem C7_validation_rejects_witness :
    (∃ pre post, (resolve_generic_lockfile envC7 sampleOutputDir).2 =
      .error (.packageRejected (pre ++ "artifacts" ++ post)
        (some "Check the correct format and whether any keys are missing in the lockfile."))) ∧
    ∀ m, Event.downloadBatch m ∉ (resolve_generic_lockfile envC7 sampleOutputDir).1 :=
  C7_validation_rejects envC7 sampleOutputDir out2C6 rawC7 "artifacts" "Field required"
    rfl (by decide) rfl rfl

/-! First-invalid-field equivalences for C8. -/

theorem validateArtifact_error_iff (out2 : RootedPath) (i : Nat) (ra : RawArtifact)
    (e : String × String) :
    validateArtifact out2 i ra = .error e ↔
      (artifactInvalidFields out2 i ra).head? = some e := by
  cases hu : ra.download_url with
  | none => simp [validateArtifact, artifactInvalidFields, hu]
  | some url =>
    cases ht : ra.target with
    | none => simp [validateArtifact, artifactInvalidFields, hu, ht]
    | some t =>
      cases hj : join_within_root out2 t with
      | none => simp [validateArtifact, artifactInvalidFields, hu, ht, hj]
      | some full =>
        cases hc : ra.checksums with
        | none => simp [validateArtifact, artifactInvalidFields, hu, ht, hj, hc]
        | some cs =>
          by_cases he : cs.isEmpty
          · simp [validateArtifact, artifactInvalidFields, hu, ht, hj, hc, he]
          · simp [validateArtifact, artifactInvalidFields, hu, ht, hj, hc, he]

theorem validateArtifact_ok_iff (out2 : RootedPath) (i : Nat) (ra : RawArtifact) :
    (∃ a, validateArtifact out2 i ra = .ok a) ↔
      artifactInvalidFields out2 i ra = [] := by
  cases hu : ra.download_url with
  | none => simp [validateArtifact, artifactInvalidFields, hu]
  | some url =>
    cases ht : ra.target with
    | none => simp [validateArtifact, artifactInvalidFields, hu, ht]
    | some t =>
      cases hj : join_within_root out2 t with
      | none => simp [validateArtifact, artifactInvalidFields, hu, ht, hj]
      | some full =>
        cases hc : ra.checksums with
        | none => simp [validateArtifact, artifactInvalidFields, hu, ht, hj, hc]
        | some cs =>
          by_cases he : cs.isEmpty
          · simp [validateArtifact, artifactInvalidFields, hu, ht, hj, hc, he]
          · simp [validateArtifact, artifactInvalidFields, hu, ht, hj, hc, he]

theorem validateArtifacts_error_iff (out2 : RootedPath) (ras : List RawArtifact) (i : Nat)
    (e : String × String) :
    validateArtifacts out2 i ras = .error e ↔
      (invalidFieldsArtifacts out2 i ras).head? = some e := by
  induction ras generalizing i with
  | nil => simp [validateArtifacts, invalidFieldsArtifacts]
  | cons ra rest ih =>
    cases hva : validateArtifact out2 i ra with
    | error e0 =>
      have h0 : (artifactInvalidFields out2 i ra).head? = some e0 :=
        (validateArtifact_error_iff out2 i ra e0).mp hva
      cases hf : artifactInvalidFields out2 i ra with
      | nil => rw [hf] at h0; cases h0
      | cons f0 ftl =>
        rw [hf] at h0
        injection h0 with h0
        subst h0
        simp [validateArtifacts, invalidFieldsArtifacts, hva, hf]
    | ok a =>
      have h0 : artifactInvalidFields out2 i ra = [] :=
        (validateArtifact_ok_iff out2 i ra).mp ⟨a, hva⟩
      simp only [validateArtifacts, hva, invalidFieldsArtifacts, h0, List.nil_append]
      cases hvr : validateArtifacts out2 (i + 1) rest with
      | error e1 =>
        have ih2 := ih (i + 1)
        rw [hvr] at ih2
        exact ih2
      | ok as =>
        have ih2 := ih (i + 1)
        rw [hvr] at ih2
        constructor
        · intro h; cases h
        · intro hh
          cases ih2.mpr hh

/-- C8: validation aborts with exactly one error, whose field path and
message are those of the first encountered invalid field of the raw
document. -/
theorem C8_first_invalid_field (raw : RawLockfile) (out2 : RootedPath) (e : String × String) :
    validateLockfile raw out2 = .error e ↔
      (invalidFields raw out2).head? = some e := by
  cases hv : raw.version with
  | none => simp [validateLockfile, invalidFields, hv]
  | some v =>
    by_cases hv1 : v = "1.0"
    · cases ha : raw.artifacts with
      | none => simp [validateLockfile, invalidFields, hv, hv1, ha]
      | some ras =>
        simp only [validateLockfile, invalidFields, hv, hv1, if_pos, ha, List.nil_append]
        cases hvr : validateArtifacts out2 0 ras with
        | error e1 =>
          have hvt := validateArtifacts_error_iff out2 ras 0 e
          rw [hvr] at hvt
          simpa using hvt
        | ok arts =>
          have hvt := validateArtifacts_error_iff out2 ras 0 e
          rw [hvr] at hvt
          constructor
          · intro h; cases h
          · intro hh
            cases hvt.mpr hh
    · simp [validateLockfile, invalidFields, hv, hv1]

end Cachi2Generic
